import Mathlib

/-!
Verification of the memory facade of mcp-server-qdrant.

The development shallowly embeds the two facade operations of
`src/mcp_server_qdrant/memory.py` (`memory_query`, `memory_upsert`) and the
tool adapter `memory_query_adapter` of `src/mcp_server_qdrant/mcp_server.py`.

External collaborators are modelled as oracles:
* the vector store / embedding pipeline (`QdrantConnector.search`) is a
  function from the exact arguments the code passes to it (query string,
  collection name, limit) to either an error or a hit list;
* `uuid.uuid4()` and `now_iso()` are strings supplied in an environment
  record, since they are nondeterministic inputs of `memory_upsert`.

Python dictionaries are association lists with first-match lookup,
in-place replacement on existing keys, and append on fresh keys, which
matches CPython's insertion-order semantics for the operations the code
uses (`dict(...)`, `setdefault`, item assignment, `get`).

Scores are modelled as rationals; `round(x, 4)` is modelled as decimal
round-half-even (Python's rounding mode), which is monotone, the only
property the claims depend on.
-/

namespace McpQdrant

/-- JSON-compatible metadata values, as far as the claims need them. -/
inductive JValue where
  | str (s : String)
  | num (q : ℚ)
  | jbool (b : Bool)
  | null
  deriving DecidableEq

/-- Python `str(v)` rendering of a metadata value, used by f-strings. -/
def JValue.render : JValue → String
  | .str s => s
  | .num q => toString q
  | .jbool b => if b then "True" else "False"
  | .null => "None"

/-- A Python dict with string keys: an association list in insertion order. -/
abbrev Dict := List (String × JValue)

/-- Python `d.get(k)` / `d[k]`: first-match lookup. -/
def dictGet (d : Dict) (k : String) : Option JValue :=
  match d with
  | [] => none
  | (k2, v) :: rest => if k2 = k then some v else dictGet rest k

/-- Python `d[k] = v`: replace in place if the key exists, else append. -/
def dictSet (d : Dict) (k : String) (v : JValue) : Dict :=
  match d with
  | [] => [(k, v)]
  | (k2, v2) :: rest => if k2 = k then (k, v) :: rest else (k2, v2) :: dictSet rest k v

/-- Python `d.setdefault(k, v)`: keep an existing binding, else append `(k, v)`. -/
def dictSetdefault (d : Dict) (k : String) (v : JValue) : Dict :=
  if (dictGet d k).isSome then d else d ++ [(k, v)]

/-- Rounding of a rational to the nearest integer, ties to even:
the rounding mode of Python's `round`. -/
def pyRoundInt (s : ℚ) : ℤ :=
  if s - ⌊s⌋ > 1/2 then ⌊s⌋ + 1
  else if s - ⌊s⌋ < 1/2 then ⌊s⌋
  else if ⌊s⌋ % 2 = 0 then ⌊s⌋ else ⌊s⌋ + 1

/-- Python `round(q, 4)` on an exact rational: the nearest multiple of
`1/10000`, ties to even. (Binary floating-point representation artifacts
are outside the model; scores are exact rationals here.) -/
def pyRound4 (q : ℚ) : ℚ :=
  (pyRoundInt (q * 10000) : ℚ) / 10000

/-- A raw hit as returned by `QdrantConnector.search`: the code reads
`content`, `metadata` and `score` off it, each possibly absent/None. -/
structure Hit where
  content : Option String
  metadata : Option Dict
  score : Option ℚ
  deriving DecidableEq

/-- One element of the `result` list built by `memory_query`
(`{"id": str(idx), "content": ..., "metadata": ..., "score": round(score, 4)}`). -/
structure ResultItem where
  id : String
  content : String
  metadata : Dict
  score : ℚ
  deriving DecidableEq

/-- The `Entry` model of `qdrant.py` as constructed inside `src/`:
`Entry(content=..., metadata=..., score=...)`, the latter two optional. -/
structure Entry where
  content : String
  metadata : Option Dict
  score : Option ℚ
  deriving DecidableEq

/-- Oracle for `QdrantConnector.search`: maps the arguments the code passes
(query, collection_name, limit) to an exception or a hit list. -/
structure SearchEnv where
  search : String → String → Nat → Except String (List Hit)

/-- Loop body of `memory_query`: builds the dict appended for hit `idx`,
with `content or ""`, `metadata or {}`, score defaulted to `1.0` and
rounded to 4 digits, and `id = str(idx)`. -/
def mkItem (idx : ℕ) (hit : Hit) : ResultItem :=
  { id := toString idx
  , content := hit.content.getD ""
  , metadata := hit.metadata.getD []
  , score := pyRound4 (hit.score.getD 1) }

/-- Ordering used by `result.sort(key=lambda x: x["score"], reverse=True)`:
item `a` may precede item `b` iff `b`'s score is at most `a`'s. -/
def scoreDescR (a b : ResultItem) : Prop := b.score ≤ a.score

instance : DecidableRel scoreDescR :=
  fun a b => inferInstanceAs (Decidable (b.score ≤ a.score))

instance : IsTotal ResultItem scoreDescR := ⟨fun a b => le_total b.score a.score⟩

instance : IsTrans ResultItem scoreDescR := ⟨fun _ _ _ h1 h2 => le_trans h2 h1⟩

/-- Pure core of `memory_query` on a given hit list: enumerate, map to
result items, then stable-sort by descending score. `insertionSort` with
`scoreDescR` is exactly a stable descending sort, which is CPython's
`list.sort(key=..., reverse=True)` semantics: an item is inserted after
every earlier item of strictly greater score and before earlier items of
equal or smaller score. -/
def memoryQueryItems (hits : List Hit) : List ResultItem :=
  (hits.enum.map (fun p => mkItem p.1 p.2)).insertionSort scoreDescR

/-- Embedding of `memory_query` (memory.py, lines 52-89): call the store's
`search` with exactly (query, collection_name, top_k); on an exception,
re-raise; otherwise return the sorted item list (the `{"result": ...}`
wrapper is elided, its single field is the list). `user_id` is accepted
but does not occur in the body, as in the source. -/
def memory_query (env : SearchEnv) (query : String) (top_k : ℕ)
    (collection_name : String) (user_id : Option String) :
    Except String (List ResultItem) :=
  match env.search query collection_name top_k with
  | .error e => .error e
  | .ok hits => .ok (memoryQueryItems hits)

/-- Display line of `memory_query_adapter` for one entry:
`• {content} (timestamp: ..., collection: ...)` with `-` for a missing key. -/
def formatEntryLine (e : Entry) : String :=
  let md := e.metadata.getD []
  let ts := ((dictGet md "timestamp").map JValue.render).getD "-"
  let coll := ((dictGet md "collection_name").map JValue.render).getD "-"
  s!"• {e.content} (timestamp: {ts}, collection: {coll})"

/-- Embedding of `memory_query_adapter` (mcp_server.py, lines 65-114):
default the collection name, call `memory_query`, convert each returned
dict to an `Entry`, and format; an exception anywhere in the `try` block
becomes a single error string. -/
def memory_query_adapter (env : SearchEnv) (query : String) (top_k : ℕ)
    (collection_name : Option String) (user_id : Option String) : List String :=
  match memory_query env query top_k (collection_name.getD "default") user_id with
  | .error e => [s!"Error searching for '{query}': {e}"]
  | .ok items =>
    let entries := items.map (fun it => Entry.mk it.content (some it.metadata) (some it.score))
    if entries.isEmpty then
      [s!"No information found for the query '{query}'"]
    else
      (s!"Results for '{query}':") :: entries.map formatEntryLine

/-- Nondeterministic inputs of one `memory_upsert` call: the value of
`str(uuid.uuid4())` and of `now_iso()` during that call. -/
structure UpsertEnv where
  freshUuid : String
  nowIso : String

/-- Python truthiness of `id or str(uuid.uuid4())`: `None` and `""` both
fall back to the fresh UUID. -/
def pyOrStr (x : Option String) (d : String) : String :=
  match x with
  | none => d
  | some s => if s = "" then d else s

/-- What `memory_upsert` returns to its caller
(`{"status": ..., "id": ..., "metadata": ...}`). -/
structure UpsertResult where
  status : String
  id : String
  metadata : Dict
  deriving DecidableEq

/-- The arguments `memory_upsert` hands to `client.store`: the entry and
the target collection. Note the entry carries no identifier. -/
structure StoreCall where
  entry : Entry
  collection : String
  deriving DecidableEq

/-- Embedding of `memory_upsert` (memory.py, lines 92-114): pick the id,
copy the caller metadata, `setdefault` the timestamp, overwrite the
`content` key, `setdefault` the collection name, build the entry, and
return both the result dict and the store call made. -/
def memory_upsert (env : UpsertEnv) (content : String)
    (collection_name : String) (metadata : Option Dict)
    (id : Option String) : UpsertResult × StoreCall :=
  let memory_id := pyOrStr id env.freshUuid
  let meta0 := metadata.getD []
  let meta1 := dictSetdefault meta0 "timestamp" (.str env.nowIso)
  let meta2 := dictSet meta1 "content" (.str content)
  let meta3 := dictSetdefault meta2 "collection_name" (.str collection_name)
  let entry : Entry := ⟨content, some meta3, none⟩
  ({ status := "success", id := memory_id, metadata := meta3 }, ⟨entry, collection_name⟩)

/-- A record held by the vector store: its point identifier, its
collection, and the stored entry. -/
abbrev StoreState := List (String × String × Entry)

/-- Modelled from the spec: `QdrantConnector.store` lives in `qdrant.py`,
which is not under `src/`. The spec describes it as "building a point with
a deterministic or random identifier, a payload, and a vector" and
upserting it; the entry it receives from `memory_upsert` carries no
identifier, so the point identifier is one the store generates itself
(`genId` here), independent of the caller's `id` argument. -/
def QdrantConnector.store (genId : String) (call : StoreCall)
    (st : StoreState) : StoreState :=
  (genId, call.collection, call.entry) :: st

/-! Concrete instances used to exercise the operations. -/

/-- An upsert environment with fixed oracle values. -/
def upsertEnvA : UpsertEnv := ⟨"uuid-a", "ts-a"⟩

/-- A second upsert environment, for a second call. -/
def upsertEnvB : UpsertEnv := ⟨"uuid-b", "ts-b"⟩

/-- A call of `memory_upsert` with the explicit id `my-id`. -/
def upsertCallA : UpsertResult × StoreCall :=
  memory_upsert upsertEnvA "first fact" "default" none (some "my-id")

/-- A later call of `memory_upsert` with the same explicit id `my-id`. -/
def upsertCallB : UpsertResult × StoreCall :=
  memory_upsert upsertEnvB "second fact" "default" none (some "my-id")

/-- The store contents after executing both upsert calls, the store
generating point ids `gen-a` and `gen-b`. -/
def storeAfterBoth : StoreState :=
  QdrantConnector.store "gen-b" upsertCallB.2
    (QdrantConnector.store "gen-a" upsertCallA.2 [])

/-- A call of `memory_upsert` whose caller metadata already binds
`collection_name` to a value different from the target collection. -/
def upsertCollCall : UpsertResult × StoreCall :=
  memory_upsert upsertEnvA "x" "default"
    (some [("collection_name", JValue.str "other")]) none

/-- A call of `memory_upsert` whose caller metadata already binds
`content` to a value different from the content argument. -/
def upsertContentCall : UpsertResult × StoreCall :=
  memory_upsert upsertEnvA "new" "default"
    (some [("content", JValue.str "old")]) none

/-- Two hits as the store could return them: the first has the lower
score, so the sorted output reverses their order. -/
def hitsExample : List Hit :=
  [⟨some "low", some [("timestamp", JValue.str "t1"),
      ("collection_name", JValue.str "default")], some 1⟩,
   ⟨some "high", some [("timestamp", JValue.str "t2"),
      ("collection_name", JValue.str "default")], some 2⟩]

/-- A search oracle that always returns `hitsExample`. -/
def envTwo : SearchEnv := ⟨fun _ _ _ => Except.ok hitsExample⟩

/-- A search oracle that always raises. -/
def envErr : SearchEnv := ⟨fun _ _ _ => Except.error "connection refused"⟩

/-- A search oracle over an empty collection: no hits, no error. -/
def envEmpty : SearchEnv := ⟨fun _ _ _ => Except.ok []⟩

/-- The item list `memory_query` produces from `hitsExample`. -/
def itemsTwo : List ResultItem := memoryQueryItems hitsExample

/-! Dictionary lemmas. -/

theorem dictGet_dictSet_self (d : Dict) (k : String) (v : JValue) :
    dictGet (dictSet d k v) k = some v := by
  induction d with
  | nil => simp [dictSet, dictGet]
  | cons hd tl ih =>
    obtain ⟨k2, v2⟩ := hd
    by_cases h : k2 = k
    · simp [dictSet, dictGet, h]
    · simp [dictSet, dictGet, h, ih]

theorem dictGet_dictSet_ne (d : Dict) {k k2 : String} (v : JValue) (h : k2 ≠ k) :
    dictGet (dictSet d k v) k2 = dictGet d k2 := by
  induction d with
  | nil => simp [dictSet, dictGet, Ne.symm h]
  | cons hd tl ih =>
    obtain ⟨k3, v3⟩ := hd
    by_cases h3 : k3 = k
    · subst h3
      simp [dictSet, dictGet, Ne.symm h]
    · simp [dictSet, dictGet, h3, ih]

theorem dictGet_append (d1 d2 : Dict) (k : String) :
    dictGet (d1 ++ d2) k = (dictGet d1 k).or (dictGet d2 k) := by
  induction d1 with
  | nil => simp [dictGet]
  | cons hd tl ih =>
    obtain ⟨k2, v2⟩ := hd
    by_cases h : k2 = k
    · simp [dictGet, h]
    · simp [dictGet, h, ih]

theorem dictGet_dictSetdefault_self (d : Dict) (k : String) (v : JValue) :
    dictGet (dictSetdefault d k v) k = (dictGet d k).or (some v) := by
  unfold dictSetdefault
  cases hg : dictGet d k with
  | none => simp [hg, dictGet_append, dictGet]
  | some w => simp [hg]

theorem dictGet_dictSetdefault_ne (d : Dict) {k k2 : String} (v : JValue)
    (h : k2 ≠ k) :
    dictGet (dictSetdefault d k v) k2 = dictGet d k2 := by
  unfold dictSetdefault
  by_cases hs : (dictGet d k).isSome
  · simp [hs]
  · simp [hs, dictGet_append, dictGet, Ne.symm h]

/-! Evaluation of `pyRound4` at integral scores. -/

theorem pyRoundInt_intCast (n : ℤ) : pyRoundInt ((n : ℚ)) = n := by
  unfold pyRoundInt
  norm_num

theorem pyRound4_intCast (n : ℤ) : pyRound4 ((n : ℚ)) = (n : ℚ) := by
  unfold pyRound4
  have h : ((n : ℚ)) * 10000 = (((n * 10000 : ℤ) : ℚ)) := by push_cast; ring
  rw [h, pyRoundInt_intCast]
  push_cast
  ring

theorem pyRound4_one : pyRound4 1 = 1 := by
  have h := pyRound4_intCast 1
  norm_num at h
  exact h

theorem pyRound4_two : pyRound4 2 = 2 := by
  have h := pyRound4_intCast 2
  norm_num at h
  exact h

/-! What each key of the stored metadata is, as one lookup table. -/

theorem memory_upsert_metadata_get (env : UpsertEnv) (content coll : String)
    (metadata : Option Dict) (id : Option String) (k : String) :
    dictGet (memory_upsert env content coll metadata id).1.metadata k =
      (if k = "content" then some (JValue.str content)
       else if k = "collection_name" then
         (dictGet (metadata.getD []) k).or (some (JValue.str coll))
       else if k = "timestamp" then
         (dictGet (metadata.getD []) k).or (some (JValue.str env.nowIso))
       else dictGet (metadata.getD []) k) := by
  simp only [memory_upsert]
  by_cases h1 : k = "content"
  · subst h1
    rw [dictGet_dictSetdefault_ne _ _ (by decide), dictGet_dictSet_self]
    simp
  · by_cases h2 : k = "collection_name"
    · subst h2
      rw [dictGet_dictSetdefault_self, dictGet_dictSet_ne _ _ (by decide),
        dictGet_dictSetdefault_ne _ _ (by decide)]
      simp
    · by_cases h3 : k = "timestamp"
      · subst h3
        rw [dictGet_dictSetdefault_ne _ _ (by decide),
          dictGet_dictSet_ne _ _ (by decide), dictGet_dictSetdefault_self]
        simp
      · rw [dictGet_dictSetdefault_ne _ _ h2, dictGet_dictSet_ne _ _ h1,
          dictGet_dictSetdefault_ne _ _ h3]
        simp [h1, h2, h3]

/-- C9: the metadata of every `memory_upsert` result binds at least the
keys `content`, `collection_name` and `timestamp`; the timestamp value is
the caller-supplied one when the caller supplied one and otherwise the
write-time `now_iso()` value. -/
theorem memory_upsert_metadata_keys (env : UpsertEnv) (content coll : String)
    (metadata : Option Dict) (id : Option String) :
    dictGet (memory_upsert env content coll metadata id).1.metadata "content"
        = some (JValue.str content)
    ∧ (dictGet (memory_upsert env content coll metadata id).1.metadata
        "collection_name").isSome = true
    ∧ (dictGet (memory_upsert env content coll metadata id).1.metadata
        "timestamp").isSome = true
    ∧ (∀ v, dictGet (metadata.getD []) "timestamp" = some v →
        dictGet (memory_upsert env content coll metadata id).1.metadata "timestamp"
          = some v)
    ∧ (dictGet (metadata.getD []) "timestamp" = none →
        dictGet (memory_upsert env content coll metadata id).1.metadata "timestamp"
          = some (JValue.str env.nowIso)) := by
  refine ⟨?_, ?_, ?_, ?_, ?_⟩
  · rw [memory_upsert_metadata_get]
    simp
  · rw [memory_upsert_metadata_get]
    cases h : dictGet (metadata.getD []) "collection_name" <;> simp [h]
  · rw [memory_upsert_metadata_get]
    cases h : dictGet (metadata.getD []) "timestamp" <;> simp [h]
  · intro v hv
    rw [memory_upsert_metadata_get]
    simp [hv]
  · intro hv
    rw [memory_upsert_metadata_get]
    simp [hv]

/-- Witness for C9: with a caller-supplied timestamp the stored value is
the caller's; without one it is the write-time value `ts-a`. -/
theorem memory_upsert_metadata_keys_witness :
    dictGet (memory_upsert upsertEnvA "c" "k"
        (some [("timestamp", JValue.str "given")]) none).1.metadata "timestamp"
      = some (JValue.str "given")
    ∧ dictGet (memory_upsert upsertEnvA "c" "k" none none).1.metadata "timestamp"
      = some (JValue.str "ts-a") :=
  ⟨(memory_upsert_metadata_keys upsertEnvA "c" "k"
      (some [("timestamp", JValue.str "given")]) none).2.2.2.1
      (JValue.str "given") rfl,
   (memory_upsert_metadata_keys upsertEnvA "c" "k" none none).2.2.2.2 rfl⟩

/-- C3 (counterexample): storing into collection `default` while the
caller metadata already binds `collection_name` to `other` keeps `other`
in the stored metadata, which differs from the actual storage
collection. -/
theorem memory_upsert_collection_name_counterexample :
    upsertCollCall.2.collection = "default"
    ∧ dictGet upsertCollCall.1.metadata "collection_name"
        = some (JValue.str "other")
    ∧ (decide (JValue.str "other" = JValue.str "default") = false) := by
  decide

/-- C3 (amended): when the caller metadata does not bind
`collection_name`, the stored metadata binds it to the collection the
record is actually stored into. -/
theorem memory_upsert_collection_name_of_absent (env : UpsertEnv)
    (content coll : String) (metadata : Option Dict) (id : Option String)
    (h : dictGet (metadata.getD []) "collection_name" = none) :
    dictGet (memory_upsert env content coll metadata id).1.metadata
        "collection_name" = some (JValue.str coll)
    ∧ (memory_upsert env content coll metadata id).2.collection = coll := by
  constructor
  · rw [memory_upsert_metadata_get]
    simp [h]
  · simp [memory_upsert]

/-- Witness for the amended C3, at absent caller metadata. -/
theorem memory_upsert_collection_name_of_absent_witness :
    dictGet ((none : Option Dict).getD []) "collection_name" = none
    ∧ (dictGet (memory_upsert upsertEnvB "y" "house" none none).1.metadata
          "collection_name" = some (JValue.str "house")
        ∧ (memory_upsert upsertEnvB "y" "house" none none).2.collection
            = "house") :=
  ⟨rfl, memory_upsert_collection_name_of_absent upsertEnvB "y" "house" none none rfl⟩

/-- C4 (counterexample): a caller metadata mapping binding `content` to
`old` is not preserved: `memory_upsert` overwrites the `content` key with
the content argument `new`, so a key of the supplied mapping other than
the added timestamp/collection fields is altered. -/
theorem memory_upsert_roundtrip_counterexample :
    dictGet upsertContentCall.1.metadata "content" = some (JValue.str "new")
    ∧ (decide (dictGet upsertContentCall.1.metadata "content"
        = some (JValue.str "old")) = false) := by
  decide

/-- C4 (amended): the stored metadata agrees with the supplied mapping on
every key other than `timestamp`, `collection_name` and `content`; the
`content` key is set to the content argument; and a query passes the
stored metadata of a hit through to its result item unchanged. -/
theorem memory_upsert_metadata_roundtrip (env : UpsertEnv)
    (content coll : String) (m : Dict) (id : Option String) (k : String)
    (h1 : k ≠ "timestamp") (h2 : k ≠ "collection_name") (h3 : k ≠ "content") :
    dictGet (memory_upsert env content coll (some m) id).1.metadata k
        = dictGet m k
    ∧ dictGet (memory_upsert env content coll (some m) id).1.metadata "content"
        = some (JValue.str content)
    ∧ ∀ (i : ℕ) (hit : Hit), (mkItem i hit).metadata = hit.metadata.getD [] := by
  refine ⟨?_, ?_, fun i hit => rfl⟩
  · rw [memory_upsert_metadata_get]
    simp [h1, h2, h3]
  · rw [memory_upsert_metadata_get]
    simp

/-- Witness for the amended C4: the key `user` of the supplied mapping is
returned unaltered, and the `content` key holds the content argument. -/
theorem memory_upsert_metadata_roundtrip_witness :
    dictGet (memory_upsert upsertEnvA "c" "default"
        (some [("user", JValue.str "zoe")]) none).1.metadata "user"
      = dictGet [("user", JValue.str "zoe")] "user"
    ∧ dictGet (memory_upsert upsertEnvA "c" "default"
        (some [("user", JValue.str "zoe")]) none).1.metadata "content"
      = some (JValue.str "c")
    ∧ (mkItem 0 (Hit.mk (some "low") (some [("user", JValue.str "zoe")]) none)).metadata
      = (Hit.mk (some "low") (some [("user", JValue.str "zoe")]) none).metadata.getD [] :=
  ⟨(memory_upsert_metadata_roundtrip upsertEnvA "c" "default"
      [("user", JValue.str "zoe")] none "user"
      (by decide) (by decide) (by decide)).1,
   (memory_upsert_metadata_roundtrip upsertEnvA "c" "default"
      [("user", JValue.str "zoe")] none "user"
      (by decide) (by decide) (by decide)).2.1,
   (memory_upsert_metadata_roundtrip upsertEnvA "c" "default"
      [("user", JValue.str "zoe")] none "user"
      (by decide) (by decide) (by decide)).2.2 0
      (Hit.mk (some "low") (some [("user", JValue.str "zoe")]) none)⟩

/-- C2 (code bug): the caller-supplied id `my-id` is returned in the
result of each call, but it never reaches the store: the entry handed to
`client.store` carries no identifier, so after two upserts with the same
explicit id the store holds two records, keyed by the identifiers the
store generated (`gen-a`, `gen-b`), neither of them `my-id` — no
overwrite can occur. -/
theorem memory_upsert_id_never_reaches_store :
    upsertCallA.1.id = "my-id"
    ∧ upsertCallB.1.id = "my-id"
    ∧ upsertCallA.2
        = ⟨⟨"first fact",
            some [("timestamp", JValue.str "ts-a"),
              ("content", JValue.str "first fact"),
              ("collection_name", JValue.str "default")], none⟩, "default"⟩
    ∧ storeAfterBoth.map (fun r => r.1) = ["gen-b", "gen-a"]
    ∧ storeAfterBoth.length = 2
    ∧ (decide ("my-id" ∈ storeAfterBoth.map (fun r => r.1)) = false) := by
  decide

/-- C1: every successful `memory_query` returns a list sorted by
non-increasing score: each item's score is at least the score of the item
that follows it. -/
theorem memory_query_sorted_desc (env : SearchEnv) (query : String)
    (top_k : ℕ) (coll : String) (uid : Option String)
    (items : List ResultItem)
    (hok : memory_query env query top_k coll uid = Except.ok items)
    (i : ℕ) (h : i + 1 < items.length) :
    (items.get ⟨i + 1, h⟩).score ≤ (items.get ⟨i, Nat.lt_of_succ_lt h⟩).score := by
  have hitems : ∃ hits, items = memoryQueryItems hits := by
    unfold memory_query at hok
    cases hs : env.search query coll top_k with
    | error e =>
      rw [hs] at hok
      simp at hok
    | ok hits =>
      rw [hs] at hok
      simp only [Except.ok.injEq] at hok
      exact ⟨hits, hok.symm⟩
  obtain ⟨hits, rfl⟩ := hitems
  have hsorted : List.Sorted scoreDescR (memoryQueryItems hits) :=
    List.sorted_insertionSort scoreDescR _
  have hp := List.pairwise_iff_getElem.mp hsorted i (i + 1)
    (Nat.lt_of_succ_lt h) h (Nat.lt_succ_self i)
  simpa [scoreDescR, List.get_eq_getElem] using hp

/-- Witness for C1: on the two-hit example the adjacent pair of the
returned list is ordered by non-increasing score. -/
theorem memory_query_sorted_desc_witness :
    ∃ h : 0 + 1 < itemsTwo.length,
      (itemsTwo.get ⟨0 + 1, h⟩).score
        ≤ (itemsTwo.get ⟨0, Nat.lt_of_succ_lt h⟩).score := by
  have h2 : 0 + 1 < itemsTwo.length := by
    show 0 + 1 < (List.insertionSort scoreDescR _).length
    rw [List.length_insertionSort]
    simp [hitsExample]
  exact ⟨h2, memory_query_sorted_desc envTwo "q" 10 "default" none itemsTwo rfl 0 h2⟩

/-- C5: when the underlying search raises, the `memory_query` tool
returns a single-element list with the error message and does not
propagate the exception. -/
theorem memory_query_adapter_error_string (env : SearchEnv) (query : String)
    (top_k : ℕ) (collName uid : Option String) (e : String)
    (h : env.search query (collName.getD "default") top_k = Except.error e) :
    memory_query_adapter env query top_k collName uid
      = [s!"Error searching for '{query}': {e}"] := by
  unfold memory_query_adapter memory_query
  rw [h]

/-- Witness for C5, against the always-raising search oracle. -/
theorem memory_query_adapter_error_string_witness :
    memory_query_adapter envErr "q" 10 none none
      = [s!"Error searching for 'q': connection refused"] :=
  memory_query_adapter_error_string envErr "q" 10 none none "connection refused" rfl

/-- C6: when the underlying search returns no hits, the `memory_query`
tool returns the single no-information message for the query, not an
error. -/
theorem memory_query_adapter_empty_message (env : SearchEnv) (query : String)
    (top_k : ℕ) (collName uid : Option String)
    (h : env.search query (collName.getD "default") top_k = Except.ok []) :
    memory_query_adapter env query top_k collName uid
      = [s!"No information found for the query '{query}'"] := by
  unfold memory_query_adapter memory_query
  rw [h]
  rfl

/-- Witness for C6, against the empty-collection search oracle. -/
theorem memory_query_adapter_empty_message_witness :
    memory_query_adapter envEmpty "q" 10 none none
      = [s!"No information found for the query 'q'"] :=
  memory_query_adapter_empty_message envEmpty "q" 10 none none rfl

/-- C7: when the underlying search returns `n ≥ 1` hits, the tool output
is one header line naming the query followed by one formatted line per
(sorted) hit: `n + 1` strings in total. -/
theorem memory_query_adapter_shape (env : SearchEnv) (query : String)
    (top_k : ℕ) (collName uid : Option String) (hits : List Hit)
    (h : env.search query (collName.getD "default") top_k = Except.ok hits)
    (hne : hits ≠ []) :
    memory_query_adapter env query top_k collName uid
      = (s!"Results for '{query}':")
        :: (memoryQueryItems hits).map
          (fun it => formatEntryLine (Entry.mk it.content (some it.metadata) (some it.score)))
    ∧ (memory_query_adapter env query top_k collName uid).length
        = hits.length + 1 := by
  have hlen : (memoryQueryItems hits).length = hits.length := by
    simp [memoryQueryItems, List.length_insertionSort]
  have hni : memoryQueryItems hits ≠ [] := by
    intro h0
    apply hne
    have hl := congrArg List.length h0
    rw [hlen] at hl
    exact List.length_eq_zero.mp (by simpa using hl)
  have hmain : memory_query_adapter env query top_k collName uid
      = (s!"Results for '{query}':")
        :: (memoryQueryItems hits).map
          (fun it => formatEntryLine (Entry.mk it.content (some it.metadata) (some it.score))) := by
    unfold memory_query_adapter memory_query
    rw [h]
    have hfalse : ((memoryQueryItems hits).map
        (fun it => Entry.mk it.content (some it.metadata) (some it.score))).isEmpty
          = false := by
      simp [hni]
    simp [hfalse, List.map_map, Function.comp]
  refine ⟨hmain, ?_⟩
  rw [hmain]
  simp [hlen]

/-- Witness for C7, on the two-hit oracle: three output lines. -/
theorem memory_query_adapter_shape_witness :
    memory_query_adapter envTwo "q" 10 none none
      = (s!"Results for 'q':")
        :: (memoryQueryItems hitsExample).map
          (fun it => formatEntryLine (Entry.mk it.content (some it.metadata) (some it.score)))
    ∧ (memory_query_adapter envTwo "q" 10 none none).length
        = hitsExample.length + 1 :=
  memory_query_adapter_shape envTwo "q" 10 none none hitsExample rfl
    (by simp [hitsExample])

/-- C8: the `user_id` argument influences neither the search request nor
the output: two calls differing only in `user_id`, against the same
oracle, return identical values, both for `memory_query` and for the
tool adapter. -/
theorem memory_query_user_id_noninterference (env : SearchEnv)
    (query : String) (top_k : ℕ) (coll : String) (collName : Option String)
    (u1 u2 : Option String) :
    memory_query env query top_k coll u1 = memory_query env query top_k coll u2
    ∧ memory_query_adapter env query top_k collName u1
        = memory_query_adapter env query top_k collName u2 :=
  ⟨rfl, rfl⟩

/-- C10: every item of a `memory_query` result is the item built from
some position `i` of the raw hit list, with `id = str(i)` assigned before
the descending sort; on the two-hit example the returned ids are
`["1", "0"]`, out of numeric order. -/
theorem memory_query_ids_positional :
    (∀ (hits : List Hit) (item : ResultItem), item ∈ memoryQueryItems hits →
      ∃ i, ∃ hlt : i < hits.length,
        item = mkItem i (hits.get ⟨i, hlt⟩) ∧ item.id = toString i)
    ∧ (memoryQueryItems hitsExample).map ResultItem.id = ["1", "0"] := by
  constructor
  · intro hits item hmem
    simp only [memoryQueryItems] at hmem
    have hmem2 : item ∈ hits.enum.map (fun p => mkItem p.1 p.2) :=
      (List.mem_insertionSort scoreDescR).mp hmem
    obtain ⟨n, hn, hget⟩ := List.mem_iff_getElem.mp hmem2
    have hlt : n < hits.length := by simpa using hn
    have heq : item = mkItem n (hits.get ⟨n, hlt⟩) := by
      rw [← hget]
      simp
    refine ⟨n, hlt, heq, ?_⟩
    rw [heq]
    rfl
  · norm_num [memoryQueryItems, hitsExample, mkItem, scoreDescR,
      List.enum, List.enumFrom, pyRound4_one, pyRound4_two]
    exact ⟨rfl, rfl⟩

/-- Witness for C10: the head of the sorted two-hit result is the item of
raw position 1. -/
theorem memory_query_ids_positional_witness :
    ∃ i, ∃ hlt : i < hitsExample.length,
      mkItem 1 (hitsExample.get ⟨1, by decide⟩)
          = mkItem i (hitsExample.get ⟨i, hlt⟩)
      ∧ (mkItem 1 (hitsExample.get ⟨1, by decide⟩)).id = toString i := by
  refine memory_query_ids_positional.1 hitsExample _ ?_
  simp only [memoryQueryItems, List.mem_insertionSort]
  simp [hitsExample, List.enum, List.enumFrom]

end McpQdrant
